import Mathlib

/-!
Shallow embedding of the query-finalization core of the chroma worker:
the `Limit` operator with its `SkipScanner`
(`src/rust/worker/src/execution/operators/limit.rs`) and the
`MergeMetadataResults` ("MergeAndHydrate") operator
(`src/rust/worker/src/execution/operators/merge_metadata_results.rs`).

Offset ids (`u32` in the source) are modelled as `ℕ`; roaring bitmaps are
modelled as `Finset ℕ`; fallible or panicking code paths return `Option`.
Collaborator contracts that are out of scope of the core (the record-segment
reader, the log materializer, the sorted-vector merge utilities of
`chroma_index::utils`) are modelled from the spec's interface descriptions
(spec sections 4.2, 4.3, 4.6 and 6), since their sources are not part of
this repository.
-/

namespace Chroma

/-- The terminal per-offset-id state of the log, `MaterializedLogOperation`
in `chroma_types`. -/
inductive MaterializedLogOperation where
  | Add
  | UpdateExisting
  | OverwriteExisting
  | DeleteExisting
  deriving DecidableEq, Repr

/-- Metadata scalar values (`MetadataValue` in `chroma_types`); the float
variant is omitted since no claim concerns metadata values themselves. -/
inductive MetadataValue where
  | str (s : String)
  | int (z : Int)
  | boolean (b : Bool)
  deriving DecidableEq, Repr

/-- A metadata map (`Metadata` in `chroma_types`), modelled as an
association list. -/
def ChromaMetadata := List (String × MetadataValue)

instance : DecidableEq ChromaMetadata := by
  unfold ChromaMetadata; infer_instance

/-- Modelled from the spec: an entry of the materializer's output
(spec section 4.3); `LogMaterializer::materialize` itself is not part of
this repository, so its output is taken as an input of the operators.
The fields carry the terminal operation and the merged (post-log)
projections the two operators read. -/
structure MaterializedLogRecord where
  offset_id : ℕ
  final_operation : MaterializedLogOperation
  merged_user_id : String
  merged_metadata : ChromaMetadata
  merged_document : Option String

/-- `SignedRoaringBitmap` from `chroma_types`: an inclusion or exclusion
candidate set of offset ids. -/
inductive SignedRoaringBitmap where
  | Include (rbm : Finset ℕ)
  | Exclude (rbm : Finset ℕ)

/-! ### Roaring bitmap operations

`RoaringBitmap` is modelled as `Finset ℕ`.  `rank(v)` in `roaring-rs`
counts elements `≤ v`; `select(i)` returns the `i`-th smallest element if
any; `max()` returns the largest element if any. -/

/-- `RoaringBitmap::rank`: number of elements less than or equal to the
target. -/
def rbRank (b : Finset ℕ) (v : ℕ) : ℕ := (b.filter (fun x => x ≤ v)).card

/-- The sorted ascending list of a bitmap's elements.  (Implemented with
insertion sort rather than `Finset.sort` so that closed instances reduce
inside the kernel; the result is the same sorted list.) -/
def rbSorted (b : Finset ℕ) : List ℕ :=
  Quot.liftOn b.val (fun l => l.insertionSort (· ≤ ·)) fun _ _ h =>
    List.eq_of_perm_of_sorted
      ((List.perm_insertionSort _ _).trans (h.trans (List.perm_insertionSort _ _).symm))
      (List.sorted_insertionSort _ _) (List.sorted_insertionSort _ _)

/-- `RoaringBitmap::select`: the `i`-th smallest element, if in range. -/
def rbSelect (b : Finset ℕ) (i : ℕ) : Option ℕ := (rbSorted b).get? i

/-- `RoaringBitmap::max().unwrap_or(0)`. -/
def rbMaxD (b : Finset ℕ) : ℕ := b.max.unbot' 0

/-- `RoaringBitmap::remove_smallest(n)`: drop the `n` smallest elements. -/
def rbRemoveSmallest (b : Finset ℕ) (n : ℕ) : Finset ℕ :=
  ((rbSorted b).drop n).toFinset

/-- `bitmap.into_iter().take(n).collect()`: keep the `n` smallest
elements. -/
def rbTake (b : Finset ℕ) (n : ℕ) : Finset ℕ := ((rbSorted b).take n).toFinset

/-- Whether a list is strictly ascending (each element exceeds its
predecessor). -/
def strictAscend : List ℕ → Bool
  | [] => true
  | [_] => true
  | x :: y :: rest => x < y && strictAscend (y :: rest)

/-- `RoaringBitmap::from_sorted_iter`: succeeds exactly when the list is
strictly ascending (each appended value must exceed the current maximum). -/
def fromSortedIter (l : List ℕ) : Option (Finset ℕ) :=
  if strictAscend l then some l.toFinset else none

/-! ### Record segment reader (spec section 4.2 contract) -/

/-- Modelled from the spec: the record-segment reader contract of spec
section 4.2 (`RecordSegmentReader` of `segment::record_segment` is not part
of this repository).  `ids` is the sorted set of offset ids stored in the
compacted segment; `maxOffset` is `current_max_offset_id`, the largest
offset id ever assigned, which is at least every stored id. -/
structure RecordSegmentReader where
  ids : Finset ℕ
  maxOffset : ℕ

namespace RecordSegmentReader

/-- `count()`: the number of stored offset ids. -/
def count (s : RecordSegmentReader) : ℕ := s.ids.card

/-- `get_offset_id_rank(o)`: number of stored ids strictly less than `o`
(spec section 4.2: strictly less than, not `≤`). -/
def get_offset_id_rank (s : RecordSegmentReader) (o : ℕ) : ℕ :=
  (s.ids.filter (fun x => x < o)).card

/-- `get_offset_id_at_index(i)`: the `i`-th stored id in sorted order;
the source only calls it under the guard `i < count()`, so out-of-range
access is modelled by the default value. -/
def get_offset_id_at_index (s : RecordSegmentReader) (i : ℕ) : ℕ :=
  (rbSorted s.ids).getD i 0

/-- `get_current_max_offset_id().load(Relaxed)`. -/
def get_current_max_offset_id (s : RecordSegmentReader) : ℕ := s.maxOffset

end RecordSegmentReader

/-! ### SkipScanner (`limit.rs` lines 59-169) -/

/-- The strict rank used throughout `SkipScanner`:
`bitmap.rank(target) as usize - bitmap.contains(target) as usize`. -/
def rbStrictRank (b : Finset ℕ) (v : ℕ) : ℕ :=
  rbRank b v - (if v ∈ b then 1 else 0)

/-- `SkipScanner::joint_rank` (`limit.rs` lines 74-83): the number of
elements strictly below `target` in the materialized log, plus the segment
rank, minus the mask rank.  `usize` subtraction is modelled by truncated
`ℕ` subtraction. -/
def jointRank (log_offset_ids : Finset ℕ) (record_segment : RecordSegmentReader)
    (mask : Finset ℕ) (target : ℕ) : ℕ :=
  rbStrictRank log_offset_ids target + record_segment.get_offset_id_rank target
    - rbStrictRank mask target

/-- The `while size > 1` loop of `SkipScanner::seek_starting_index`
(`limit.rs` lines 106-114).  The loop shrinks `size` by `size / 2 ≥ 1` on
every iteration, so it runs at most `size` times; the explicit `fuel`
argument (instantiated with `size` by the caller) makes the recursion
structural and is never exhausted. -/
def seekLoop (jr : ℕ → ℕ) (skip : ℕ) : ℕ → ℕ → ℕ → ℕ
  | 0, base, _ => base
  | fuel + 1, base, size =>
    if size ≤ 1 then base
    else
      let half := size / 2
      let mid := base + half
      seekLoop jr skip fuel (if jr mid > skip then base else mid) (size - half)

/-- `SkipScanner::seek_starting_index` (`limit.rs` lines 92-120): binary
search for the starting cursors `(log index, record index)` given the
number of elements to skip. -/
def seek_starting_index (log_offset_ids : Finset ℕ)
    (record_segment : RecordSegmentReader) (mask : Finset ℕ) (skip : ℕ) :
    ℕ × ℕ :=
  if skip = 0 then (0, 0)
  else
    let size := max record_segment.get_current_max_offset_id (rbMaxD log_offset_ids)
    if size = 0 then (0, 0)
    else
      let base := seekLoop (jointRank log_offset_ids record_segment mask) skip size 0 size
      (rbStrictRank log_offset_ids base, record_segment.get_offset_id_rank base)

/-- The `while fetch > 0` merge loop of `SkipScanner::seek_and_scan`
(`limit.rs` lines 132-164), producing the `merged_result` vector.  Every
iteration either decrements `fetch` or advances `record_index` (which the
masked branch keeps below `count`), so the loop runs at most
`fetch + count` times; the explicit `fuel` argument (instantiated with
`fetch + count` by the caller) makes the recursion structural and is never
exhausted. -/
def scanLoop (log_offset_ids : Finset ℕ) (record_segment : RecordSegmentReader)
    (mask : Finset ℕ) : ℕ → ℕ → ℕ → ℕ → List ℕ
  | 0, _, _, _ => []
  | fuel + 1, log_index, record_index, fetch =>
    if fetch = 0 then []
    else if record_index < record_segment.count then
      -- `record_offset_id` is `Some`: the masked arm, then the
      -- `(Some, Some)` and `(None, Some)` arms of the source match
      let oid := record_segment.get_offset_id_at_index record_index
      if oid ∈ mask then
        scanLoop log_offset_ids record_segment mask fuel log_index (record_index + 1) fetch
      else
        match rbSelect log_offset_ids log_index with
        | some log_oid =>
          if log_oid < oid then
            log_oid :: scanLoop log_offset_ids record_segment mask fuel
              (log_index + 1) record_index (fetch - 1)
          else
            oid :: scanLoop log_offset_ids record_segment mask fuel
              log_index (record_index + 1) (fetch - 1)
        | none =>
          oid :: scanLoop log_offset_ids record_segment mask fuel
            log_index (record_index + 1) (fetch - 1)
    else
      -- `record_offset_id` is `None`: the `(Some, None)` and
      -- `(None, None)` arms of the source match
      match rbSelect log_offset_ids log_index with
      | some oid =>
        oid :: scanLoop log_offset_ids record_segment mask fuel
          (log_index + 1) record_index (fetch - 1)
      | none =>
        scanLoop log_offset_ids record_segment mask fuel log_index record_index (fetch - 1)

/-- `SkipScanner::seek_and_scan` (`limit.rs` lines 123-168): seek the
starting cursors, run the merge loop, and build the result bitmap with
`RoaringBitmap::from_sorted_iter` (whose `.expect` panic is modelled by
`none`). -/
def seek_and_scan (log_offset_ids : Finset ℕ) (record_segment : RecordSegmentReader)
    (mask : Finset ℕ) (skip fetch : ℕ) : Option (Finset ℕ) :=
  let start := seek_starting_index log_offset_ids record_segment mask skip
  fromSortedIter
    (scanLoop log_offset_ids record_segment mask (fetch + record_segment.count)
      start.1 start.2 fetch)

/-! ### Limit operator (`limit.rs` lines 171-251) -/

/-- `LimitOperator` (`limit.rs` lines 20-24). -/
structure LimitOperator where
  skip : ℕ
  fetch : Option ℕ

/-- `LimitInput` (`limit.rs` lines 26-32).  The log chunk and segment
handles are replaced by their resolved forms: the materializer output
(spec section 4.3) and the optional record-segment reader produced by
`input.segments.record_segment_reader()` (absent when the segment is
uninitialized). -/
structure LimitInput where
  matLog : List MaterializedLogRecord
  reader : Option RecordSegmentReader
  log_offset_ids : SignedRoaringBitmap
  compact_offset_ids : SignedRoaringBitmap

/-- The active domain of the materialized log (`limit.rs` lines 191-200):
the set of offset ids of materialized entries whose terminal operation is
not `DeleteExisting`. -/
def activeDomain (matLog : List MaterializedLogRecord) : Finset ℕ :=
  ((matLog.filter
      (fun log => ¬ log.final_operation = MaterializedLogOperation.DeleteExisting)).map
    (fun log => log.offset_id)).toFinset

/-- The resolution of `log_offset_ids` into a concrete bitmap
(`limit.rs` lines 181-203): an `Include` bitmap is used as is, an
`Exclude` bitmap is subtracted from the active domain of the materialized
log. -/
def resolveLogOffsetIds (input : LimitInput) : Finset ℕ :=
  match input.log_offset_ids with
  | SignedRoaringBitmap.Include rbm => rbm
  | SignedRoaringBitmap.Exclude rbm => activeDomain input.matLog \ rbm

/-- `u32::MAX`. -/
def u32Max : ℕ := 2 ^ 32 - 1

/-- `LimitOperator::run` (`limit.rs` lines 175-250).  `none` models a
panic inside `SkipScanner::seek_and_scan`; segment-fetch and materializer
errors are out of scope of the embedded inputs. -/
def LimitOperator.run (op : LimitOperator) (input : LimitInput) :
    Option (Finset ℕ) :=
  let materialized_log_offset_ids := resolveLogOffsetIds input
  match input.compact_offset_ids with
  | SignedRoaringBitmap.Include rbm =>
    let merged_oids := rbRemoveSmallest (materialized_log_offset_ids ∪ rbm) op.skip
    match op.fetch with
    | some take_count => some (rbTake merged_oids take_count)
    | none => some merged_oids
  | SignedRoaringBitmap.Exclude rbm =>
    match input.reader with
    | some reader =>
      let record_count := reader.count
      let log_count := materialized_log_offset_ids.card
      let filter_match_count := log_count + record_count - rbm.card
      let truncated_skip := min op.skip filter_match_count
      let truncated_fetch :=
        min (op.fetch.getD u32Max) (filter_match_count - truncated_skip)
      seek_and_scan materialized_log_offset_ids reader rbm truncated_skip truncated_fetch
    | none =>
      let remaining := rbRemoveSmallest materialized_log_offset_ids op.skip
      match op.fetch with
      | some take_count => some (rbTake remaining take_count)
      | none => some remaining

/-- The conceptual window the spec demands of `seek_and_scan`, stated in
the spec's words for comparison with the implementation (spec sections 4.4
and 8): positions `skip` through `skip + fetch - 1` of the ascending
sorted set `(L ∪ S) − M`. -/
def specWindow (log_offset_ids : Finset ℕ) (record_segment : RecordSegmentReader)
    (mask : Finset ℕ) (skip fetch : ℕ) : List ℕ :=
  ((rbSorted ((log_offset_ids ∪ record_segment.ids) \ mask)).drop skip).take fetch

/-! ### MergeMetadataResults ("MergeAndHydrate") operator
(`merge_metadata_results.rs`) -/

/-- Modelled from the spec: the record-segment reader contract consumed by
`MergeMetadataResultsOperator` (spec sections 4.2 and 6;
`segment::record_segment` is not part of this repository).
`get_all_offset_ids` yields the sorted list of all stored offset ids;
the per-offset lookups return `none` (a read error) for ids that are not
stored. -/
structure MergeSegmentReader where
  allOffsetIds : List ℕ
  userIdOf : ℕ → Option String
  dataOf : ℕ → Option (Option ChromaMetadata × Option String)

/-- `MergeMetadataResultsOperatorInput` (`merge_metadata_results.rs` lines
28-41).  The log chunk is replaced by the materializer's output (spec
section 4.3) and the segment definition plus blockfile provider by the
optional reader their resolution yields (absent when the segment is
uninitialized, `merge_metadata_results.rs` lines 117-131). -/
structure MergeMetadataResultsOperatorInput where
  matLog : List MaterializedLogRecord
  user_offset_ids : Option (List ℕ)
  filtered_offset_ids : Option (List ℕ)
  reader : Option MergeSegmentReader
  offset : Option ℕ
  limit : Option ℕ
  include_metadata : Bool

/-- `MergeMetadataResultsOperatorOutput` (`merge_metadata_results.rs`
lines 67-72). -/
structure MergeMetadataResultsOperatorOutput where
  ids : List String
  metadata : List (Option ChromaMetadata)
  documents : List (Option String)
  deriving DecidableEq

/-- Modelled from the spec: `merge_sorted_vecs_conjunction` of
`chroma_index::utils` (not part of this repository), the sorted-vector
intersection of spec section 4.6, as a two-pointer merge.  Each step
consumes at least one element, so `fuel = |xs| + |ys|` (supplied by the
wrapper) is never exhausted. -/
def mergeConjAux : ℕ → List ℕ → List ℕ → List ℕ
  | 0, _, _ => []
  | _ + 1, [], _ => []
  | _ + 1, _ :: _, [] => []
  | fuel + 1, x :: xs, y :: ys =>
    if x = y then x :: mergeConjAux fuel xs ys
    else if x < y then mergeConjAux fuel xs (y :: ys)
    else mergeConjAux fuel (x :: xs) ys

/-- Sorted-vector intersection (spec section 4.6, step 3). -/
def merge_sorted_vecs_conjunction (xs ys : List ℕ) : List ℕ :=
  mergeConjAux (xs.length + ys.length) xs ys

/-- Modelled from the spec: `merge_sorted_vecs_disjunction` of
`chroma_index::utils` (not part of this repository), the sorted-vector
union of spec section 4.6, as a two-pointer merge that deduplicates equal
heads.  Each step consumes at least one element, so `fuel = |xs| + |ys|`
(supplied by the wrapper) is never exhausted. -/
def mergeDisjAux : ℕ → List ℕ → List ℕ → List ℕ
  | 0, xs, ys => xs ++ ys
  | _ + 1, [], ys => ys
  | _ + 1, x :: xs, [] => x :: xs
  | fuel + 1, x :: xs, y :: ys =>
    if x = y then x :: mergeDisjAux fuel xs ys
    else if x < y then x :: mergeDisjAux fuel xs (y :: ys)
    else y :: mergeDisjAux fuel (x :: xs) ys

/-- Sorted-vector union (spec section 4.6, step 3). -/
def merge_sorted_vecs_disjunction (xs ys : List ℕ) : List ℕ :=
  mergeDisjAux (xs.length + ys.length) xs ys

/-- The merged candidate list (`merge_metadata_results.rs` lines 148-180):
intersection when both candidate lists are present, the present one when
exactly one is, and otherwise the union of the live materialized-log
offset ids (collected through a `BTreeSet`, hence sorted and unique) with
all segment offset ids (or the live log ids alone when the reader is
absent). -/
def mergedOffsetIds (input : MergeMetadataResultsOperatorInput) : List ℕ :=
  match input.filtered_offset_ids, input.user_offset_ids with
  | some fids, some uids => merge_sorted_vecs_conjunction fids uids
  | some oids, none => oids
  | none, some oids => oids
  | none, none =>
    let live_log_offset_ids :=
      rbSorted ((input.matLog.filter
          (fun log => ¬ log.final_operation = MaterializedLogOperation.DeleteExisting)).map
        (fun log => log.offset_id)).toFinset
    match input.reader with
    | some reader => merge_sorted_vecs_disjunction live_log_offset_ids reader.allOffsetIds
    | none => live_log_offset_ids

/-- The index assigned to an offset id by `truncated_offset_id_order`
(`merge_metadata_results.rs` lines 191-195): the `HashMap` is filled from
the enumerated window, so a duplicated offset id keeps its last index. -/
def lastIdxOf (window : List ℕ) (o : ℕ) : Option ℕ :=
  ((window.enum.filter (fun p => p.2 = o)).getLast?).map (fun p => p.1)

/-- The mutable hydration state of `MergeMetadataResultsOperator::run`:
the three output vectors and the set of offset ids seen in the
materialized log. -/
structure HydrationState where
  ids : List String
  metadata : List (Option ChromaMetadata)
  documents : List (Option String)
  logged_offset_ids : Finset ℕ

/-- One iteration of the log hydration pass (`merge_metadata_results.rs`
lines 206-220) for the materialized entry `log`: the offset id is recorded
in `logged_offset_ids`; when the offset id is in the window map the merged
user id (and, when metadata is included, the merged metadata — absent when
empty — and merged document) is written at the mapped index. -/
def hydrateLogStep (include_metadata : Bool) (window : List ℕ)
    (st : HydrationState) (log : MaterializedLogRecord) : HydrationState :=
  let st1 := { st with logged_offset_ids := insert log.offset_id st.logged_offset_ids }
  match lastIdxOf window log.offset_id with
  | some index =>
    if include_metadata then
      { st1 with
        ids := st1.ids.set index log.merged_user_id
        metadata := st1.metadata.set index
          (if log.merged_metadata = [] then none else some log.merged_metadata)
        documents := st1.documents.set index log.merged_document }
    else { st1 with ids := st1.ids.set index log.merged_user_id }
  | none => st1

/-- The log hydration pass (`merge_metadata_results.rs` lines 205-220):
the `for` loop over the materialized entries. -/
def hydrateFromLog (include_metadata : Bool) (window : List ℕ)
    (st : HydrationState) (entries : List MaterializedLogRecord) : HydrationState :=
  entries.foldl (hydrateLogStep include_metadata window) st

/-- One step of the segment hydration pass (`merge_metadata_results.rs`
lines 224-247) for the window pair `(index, offset_id)`: the user id (and,
when metadata is included, the stored record) is looked up in the reader;
a failed lookup is the `RecordSegmentReadError` path. -/
def hydrateSegStep (include_metadata : Bool) (reader : MergeSegmentReader)
    (st : HydrationState) (p : ℕ × ℕ) : Option HydrationState := do
  let user_id ← reader.userIdOf p.2
  let st1 := { st with ids := st.ids.set p.1 user_id }
  if include_metadata then
    let record ← reader.dataOf p.2
    pure { st1 with
      metadata := st1.metadata.set p.1 record.1
      documents := st1.documents.set p.1 record.2 }
  else pure st1

/-- The segment hydration pass (`merge_metadata_results.rs` lines
222-248): every entry of `truncated_offset_id_order` whose offset id was
not seen in the log is hydrated from the reader.  The `HashMap` iterates
its entries `(offset_id, last index)` in an unspecified order; since each
entry writes only at its own index, the pass is modelled by iterating the
enumerated window restricted to the pairs the map holds. -/
def hydrateFromSegment (include_metadata : Bool) (reader : MergeSegmentReader)
    (window : List ℕ) (logged : Finset ℕ) (st : HydrationState) :
    Option HydrationState :=
  (window.enum.filter
    (fun p => lastIdxOf window p.2 = some p.1 ∧ p.2 ∉ logged)).foldlM
    (hydrateSegStep include_metadata reader) st

/-- `skip_count` (`merge_metadata_results.rs` line 183). -/
def skipCount (input : MergeMetadataResultsOperatorInput) : ℕ := input.offset.getD 0

/-- `take_count` (`merge_metadata_results.rs` lines 184-187). -/
def takeCount (input : MergeMetadataResultsOperatorInput) : ℕ :=
  input.limit.getD (mergedOffsetIds input).length

/-- `truncated_offset_ids` (`merge_metadata_results.rs` line 190): the
window `merged_offset_ids[skip_count..skip_count + take_count]` (when it
is in range). -/
def windowIds (input : MergeMetadataResultsOperatorInput) : List ℕ :=
  ((mergedOffsetIds input).drop (skipCount input)).take (takeCount input)

/-- The output vectors as pre-sized before hydration
(`merge_metadata_results.rs` lines 196-203). -/
def initState (input : MergeMetadataResultsOperatorInput) : HydrationState :=
  { ids := List.replicate (takeCount input) ""
    metadata :=
      if input.include_metadata then List.replicate (takeCount input) none else []
    documents :=
      if input.include_metadata then List.replicate (takeCount input) none else []
    logged_offset_ids := ∅ }

/-- The hydration state after the log pass
(`merge_metadata_results.rs` lines 205-220). -/
def logState (input : MergeMetadataResultsOperatorInput) : HydrationState :=
  hydrateFromLog input.include_metadata (windowIds input) (initState input) input.matLog

/-- `MergeMetadataResultsOperator::run` (`merge_metadata_results.rs` lines
107-255).  `none` models both the slice panic of
`merged_offset_ids[skip_count..skip_count + take_count]` and a
`RecordSegmentReadError` during segment hydration; reader-creation and
materializer errors are out of scope of the embedded inputs. -/
def mergeRun (input : MergeMetadataResultsOperatorInput) :
    Option MergeMetadataResultsOperatorOutput :=
  if skipCount input + takeCount input ≤ (mergedOffsetIds input).length then
    match input.reader with
    | some reader =>
      match hydrateFromSegment input.include_metadata reader (windowIds input)
          (logState input).logged_offset_ids (logState input) with
      | some stB => some ⟨stB.ids, stB.metadata, stB.documents⟩
      | none => none
    | none => some ⟨(logState input).ids, (logState input).metadata, (logState input).documents⟩
  else none

/-! ### Basic properties of the bitmap model -/

lemma rbSorted_sorted (b : Finset ℕ) : (rbSorted b).Sorted (· ≤ ·) := by
  obtain ⟨s, hs⟩ := b
  induction s using Quot.inductionOn with
  | h l => exact List.sorted_insertionSort _ _

lemma mem_rbSorted {b : Finset ℕ} {x : ℕ} : x ∈ rbSorted b ↔ x ∈ b := by
  obtain ⟨s, hs⟩ := b
  induction s using Quot.inductionOn with
  | h l =>
    show x ∈ l.insertionSort (· ≤ ·) ↔ _
    rw [List.mem_insertionSort]
    simp [Finset.mem_mk]

lemma rbSorted_nodup (b : Finset ℕ) : (rbSorted b).Nodup := by
  obtain ⟨s, hs⟩ := b
  induction s using Quot.inductionOn with
  | h l =>
    show (l.insertionSort (· ≤ ·)).Nodup
    rw [(List.perm_insertionSort _ l).nodup_iff]
    exact hs

lemma length_rbSorted (b : Finset ℕ) : (rbSorted b).length = b.card := by
  obtain ⟨s, hs⟩ := b
  induction s using Quot.inductionOn with
  | h l => exact List.length_insertionSort _ l

lemma rbSorted_sorted_lt (b : Finset ℕ) : (rbSorted b).Sorted (· < ·) :=
  (rbSorted_sorted b).lt_of_le (rbSorted_nodup b)

lemma toFinset_rbSorted (b : Finset ℕ) : (rbSorted b).toFinset = b :=
  Finset.ext fun x => by rw [List.mem_toFinset, mem_rbSorted]

lemma rbSorted_toFinset {l : List ℕ} (h : l.Sorted (· < ·)) :
    rbSorted l.toFinset = l :=
  List.eq_of_perm_of_sorted
    (List.perm_of_nodup_nodup_toFinset_eq (rbSorted_nodup _) h.nodup
      (toFinset_rbSorted _))
    (rbSorted_sorted _) (h.imp le_of_lt)

lemma rbSorted_rbRemoveSmallest (b : Finset ℕ) (n : ℕ) :
    rbSorted (rbRemoveSmallest b n) = (rbSorted b).drop n :=
  rbSorted_toFinset ((rbSorted_sorted_lt b).sublist (List.drop_sublist n _))

lemma rbSorted_rbTake (b : Finset ℕ) (n : ℕ) :
    rbSorted (rbTake b n) = (rbSorted b).take n :=
  rbSorted_toFinset ((rbSorted_sorted_lt b).sublist (List.take_sublist n _))

lemma rbSelect_mem {b : Finset ℕ} {i x : ℕ} (h : rbSelect b i = some x) : x ∈ b := by
  rw [← mem_rbSorted]
  exact List.get?_mem h

lemma get_offset_id_at_index_mem {s : RecordSegmentReader} {i : ℕ}
    (h : i < s.count) : s.get_offset_id_at_index i ∈ s.ids := by
  rw [← mem_rbSorted]
  have hlen : i < (rbSorted s.ids).length := by
    rw [length_rbSorted]; exact h
  rw [RecordSegmentReader.get_offset_id_at_index, List.getD_eq_getElem?_getD,
    List.getElem?_eq_getElem hlen]
  exact List.getElem_mem hlen

lemma rbStrictRank_eq_card_filter_lt (b : Finset ℕ) (t : ℕ) :
    rbStrictRank b t = (b.filter (fun x => x < t)).card := by
  unfold rbStrictRank rbRank
  have hsplit : b.filter (fun x => x ≤ t)
      = b.filter (fun x => x < t) ∪ b.filter (fun x => x = t) := by
    rw [← Finset.filter_or]
    exact Finset.filter_congr fun x _ => le_iff_lt_or_eq
  have hdisj : Disjoint (b.filter (fun x => x < t)) (b.filter (fun x => x = t)) :=
    Finset.disjoint_filter.2 fun x _ hlt heq => absurd (heq ▸ hlt) (lt_irrefl t)
  rw [hsplit, Finset.card_union_of_disjoint hdisj, Finset.filter_eq']
  by_cases ht : t ∈ b <;> simp [ht]

/-- Claim C7: whenever the mask `M` is contained in `L ∪ S` and `L` and
`S` are disjoint, `SkipScanner::joint_rank(t)` equals the number of
elements of `(L ∪ S) − M` strictly less than `t`, for every target `t`. -/
theorem joint_rank_counts_elements_below_target (L M : Finset ℕ)
    (seg : RecordSegmentReader) (t : ℕ) (hM : M ⊆ L ∪ seg.ids)
    (hdisj : Disjoint L seg.ids) :
    jointRank L seg M t = (((L ∪ seg.ids) \ M).filter (fun x => x < t)).card := by
  have hsd : ((L ∪ seg.ids) \ M).filter (fun x => x < t)
      = ((L ∪ seg.ids).filter (fun x => x < t)) \ (M.filter (fun x => x < t)) := by
    ext x
    simp only [Finset.mem_filter, Finset.mem_sdiff]
    tauto
  have hsub : M.filter (fun x => x < t) ⊆ (L ∪ seg.ids).filter (fun x => x < t) :=
    Finset.filter_subset_filter _ hM
  have hcard : ((L ∪ seg.ids).filter (fun x => x < t)).card
      = (L.filter (fun x => x < t)).card + (seg.ids.filter (fun x => x < t)).card := by
    rw [Finset.filter_union,
      Finset.card_union_of_disjoint
        (hdisj.mono (Finset.filter_subset _ _) (Finset.filter_subset _ _))]
  have hle : (M.filter (fun x => x < t)).card
      ≤ (L.filter (fun x => x < t)).card + (seg.ids.filter (fun x => x < t)).card := by
    rw [← hcard]
    exact Finset.card_le_card hsub
  rw [hsd, Finset.card_sdiff hsub, hcard]
  unfold jointRank RecordSegmentReader.get_offset_id_rank
  rw [rbStrictRank_eq_card_filter_lt, rbStrictRank_eq_card_filter_lt]

/-- Witness for C7 at `L = {1}`, `S = {2}`, `M = {2}`, `t = 3`. -/
theorem joint_rank_counts_elements_below_target_witness :
    jointRank {1} ⟨{2}, 2⟩ {2} 3
      = (((({1} : Finset ℕ) ∪ ({2} : Finset ℕ)) \ {2}).filter (fun x => x < 3)).card :=
  joint_rank_counts_elements_below_target {1} {2} ⟨{2}, 2⟩ 3 (by decide) (by decide)

/-- Claim C9: with `log_offset_ids = Exclude(B)` the resolved log-side
bitmap is exactly `A − B`, where `A` is the set of materialized-log offset
ids whose terminal operation is not `DeleteExisting`; consequently an
offset id that does not occur in the materialized log (for instance a
segment-only id) is never a member of the resolved log-side bitmap,
whatever `B` is. -/
theorem resolve_log_exclude_subtracts_from_active_domain
    (matLog : List MaterializedLogRecord) (reader : Option RecordSegmentReader)
    (B : Finset ℕ) (co : SignedRoaringBitmap) :
    (∀ x : ℕ,
      x ∈ resolveLogOffsetIds ⟨matLog, reader, SignedRoaringBitmap.Exclude B, co⟩ ↔
        ((∃ log ∈ matLog, log.offset_id = x ∧
            log.final_operation ≠ MaterializedLogOperation.DeleteExisting) ∧ x ∉ B)) ∧
    (∀ x : ℕ, (∀ log ∈ matLog, log.offset_id ≠ x) →
      x ∉ resolveLogOffsetIds ⟨matLog, reader, SignedRoaringBitmap.Exclude B, co⟩) := by
  constructor
  · intro x
    simp only [resolveLogOffsetIds, activeDomain, Finset.mem_sdiff, List.mem_toFinset,
      List.mem_map, List.mem_filter, decide_eq_true_eq]
    constructor
    · rintro ⟨⟨log, ⟨hmem, hop⟩, hoff⟩, hB⟩
      exact ⟨⟨log, hmem, hoff, hop⟩, hB⟩
    · rintro ⟨⟨log, hmem, hoff, hop⟩, hB⟩
      exact ⟨⟨log, ⟨hmem, hop⟩, hoff⟩, hB⟩
  · intro x hx hmem
    simp only [resolveLogOffsetIds, activeDomain, Finset.mem_sdiff, List.mem_toFinset,
      List.mem_map, List.mem_filter, decide_eq_true_eq] at hmem
    obtain ⟨⟨log, ⟨hlmem, _⟩, hoff⟩, _⟩ := hmem
    exact hx log hlmem hoff

/-- Witness for C9: offset id `7` occurs in no materialized entry, so it
is not in the resolved log-side bitmap even though it is not in `B`. -/
theorem resolve_log_exclude_subtracts_from_active_domain_witness :
    7 ∉ resolveLogOffsetIds
      ⟨[⟨1, MaterializedLogOperation.Add, "u", [], none⟩], none,
        SignedRoaringBitmap.Exclude {2}, SignedRoaringBitmap.Exclude ∅⟩ :=
  (resolve_log_exclude_subtracts_from_active_domain
    [⟨1, MaterializedLogOperation.Add, "u", [], none⟩] none {2}
    (SignedRoaringBitmap.Exclude ∅)).2 7 (by decide)

/-- The `fetch` truncation of a list: take `n` elements when `fetch` is
`some n`, everything when it is absent. -/
def listTakeD (fetch : Option ℕ) (l : List ℕ) : List ℕ :=
  match fetch with
  | some n => l.take n
  | none => l

/-- Claim C8: with `compact_offset_ids = Include(R)` the Limit output is
the sorted union `L ∪ R` (for the resolved log-side bitmap `L`) with the
smallest `skip` elements removed and at most `fetch` elements taken (all
remaining ones when `fetch` is absent), and the result never depends on
the record segment: the run is unchanged under any replacement of the
reader. -/
theorem limit_include_compact_needs_no_segment
    (matLog : List MaterializedLogRecord) (reader : Option RecordSegmentReader)
    (lo : SignedRoaringBitmap) (R : Finset ℕ) (skip : ℕ) (fetch : Option ℕ) :
    (∃ out,
      LimitOperator.run ⟨skip, fetch⟩ ⟨matLog, reader, lo, SignedRoaringBitmap.Include R⟩
        = some out ∧
      rbSorted out = listTakeD fetch
        ((rbSorted (resolveLogOffsetIds
            ⟨matLog, reader, lo, SignedRoaringBitmap.Include R⟩ ∪ R)).drop skip)) ∧
    (∀ reader' : Option RecordSegmentReader,
      LimitOperator.run ⟨skip, fetch⟩ ⟨matLog, reader', lo, SignedRoaringBitmap.Include R⟩
        = LimitOperator.run ⟨skip, fetch⟩ ⟨matLog, reader, lo, SignedRoaringBitmap.Include R⟩) := by
  constructor
  · cases fetch with
    | none =>
      exact ⟨_, rfl, by rw [rbSorted_rbRemoveSmallest]; rfl⟩
    | some n =>
      exact ⟨_, rfl, by rw [rbSorted_rbTake, rbSorted_rbRemoveSmallest]; rfl⟩
  · intro reader'
    rfl

/-- Claim C1 (code bug): on the valid input `L = ∅`, `S = {1, 2}` with
`current_max_offset_id = 2`, mask `M = ∅`, `skip = 1`, `fetch = 1`, the
scanner's binary search range `[0, max)` cannot reach the value `2`, so
the output is `{1}` while position 1 of the conceptual set
`(L ∪ S) − M = {1, 2}` is `2`. -/
theorem limit_skip_window_off_by_one_at_max_offset :
    LimitOperator.run ⟨1, some 1⟩
        ⟨[], some ⟨{1, 2}, 2⟩, SignedRoaringBitmap.Include ∅, SignedRoaringBitmap.Exclude ∅⟩
      = some {1} ∧
    seek_and_scan ∅ ⟨{1, 2}, 2⟩ ∅ 1 1 = some {1} ∧
    specWindow ∅ ⟨{1, 2}, 2⟩ ∅ 1 1 = [2] ∧
    rbSorted {1} = [1] := by decide

/-- Claim C3 (code bug): when the log side and the segment side offer the
same offset id `5` (`L = {5}`, `S = {5}`), the merge loop emits it twice —
once from the segment cursor and once more from the log cursor, which is
never advanced past it — so the merged list is `[5, 5]`,
`RoaringBitmap::from_sorted_iter` fails, and the `.expect` panics (the run
is `none`), contradicting the claimed emit-once behaviour. -/
theorem seek_and_scan_duplicate_emission_panics :
    scanLoop {5} ⟨{5}, 5⟩ ∅ 3 0 0 2 = [5, 5] ∧
    LimitOperator.run ⟨0, none⟩
        ⟨[], some ⟨{5}, 5⟩, SignedRoaringBitmap.Include {5}, SignedRoaringBitmap.Exclude ∅⟩
      = none := by decide

/-- Counterexample to claim C2 as stated: with `compact_offset_ids =
Exclude({3})`, a present (empty) segment reader and resolved log bitmap
`L = {3, 5}`, the mask element `3` appears in the output — the scan never
tests the log cursor against the mask. -/
theorem limit_mask_exclusion_counterexample :
    LimitOperator.run ⟨0, some 1⟩
        ⟨[], some ⟨∅, 0⟩, SignedRoaringBitmap.Include {3, 5}, SignedRoaringBitmap.Exclude {3}⟩
      = some {3} ∧
    3 ∈ ({3} : Finset ℕ) := by decide

lemma scanLoop_mem {L : Finset ℕ} {seg : RecordSegmentReader} {M : Finset ℕ} :
    ∀ {fuel log_index record_index fetch x : ℕ},
      x ∈ scanLoop L seg M fuel log_index record_index fetch →
        x ∈ L ∨ (x ∈ seg.ids ∧ x ∉ M) := by
  intro fuel
  induction fuel with
  | zero => intro li ri fetch x hx; simp [scanLoop] at hx
  | succ n ih =>
    intro li ri fetch x hx
    rw [scanLoop] at hx
    by_cases hf : fetch = 0
    · simp [hf] at hx
    rw [if_neg hf] at hx
    by_cases hri : ri < seg.count
    · rw [if_pos hri] at hx
      by_cases hmask : seg.get_offset_id_at_index ri ∈ M
      · rw [if_pos hmask] at hx
        exact ih hx
      · rw [if_neg hmask] at hx
        split at hx
        · rename_i log_oid hsel
          split at hx
          · rcases List.mem_cons.1 hx with rfl | hx
            · exact Or.inl (rbSelect_mem hsel)
            · exact ih hx
          · rcases List.mem_cons.1 hx with rfl | hx
            · exact Or.inr ⟨get_offset_id_at_index_mem hri, hmask⟩
            · exact ih hx
        · rcases List.mem_cons.1 hx with rfl | hx
          · exact Or.inr ⟨get_offset_id_at_index_mem hri, hmask⟩
          · exact ih hx
    · rw [if_neg hri] at hx
      split at hx
      · rename_i log_oid hsel
        rcases List.mem_cons.1 hx with rfl | hx
        · exact Or.inl (rbSelect_mem hsel)
        · exact ih hx
      · exact ih hx

/-- Claim C2 amended: with `compact_offset_ids = Exclude(M)` and a segment
reader present, every output element of the Limit run that belongs to the
mask `M` belongs to the resolved log-side bitmap `L`; equivalently, no
element of `M` outside `L` ever appears (the mask is only tested against
the segment cursor, so mask elements offered by the log cursor are not
filtered). -/
theorem limit_mask_excludes_elements_outside_log (op : LimitOperator)
    (matLog : List MaterializedLogRecord) (seg : RecordSegmentReader)
    (lo : SignedRoaringBitmap) (M : Finset ℕ) (out : Finset ℕ)
    (hrun : op.run ⟨matLog, some seg, lo, SignedRoaringBitmap.Exclude M⟩ = some out) :
    ∀ x ∈ out, x ∈ M →
      x ∈ resolveLogOffsetIds ⟨matLog, some seg, lo, SignedRoaringBitmap.Exclude M⟩ := by
  intro x hx hxM
  simp only [LimitOperator.run, seek_and_scan, fromSortedIter] at hrun
  split at hrun
  · rcases Option.some.injEq .. ▸ hrun with rfl
    rcases (scanLoop_mem (List.mem_toFinset.1 hx)) with hL | ⟨_, hnM⟩
    · exact hL
    · exact absurd hxM hnM
  · exact absurd hrun (by simp)

/-- Witness for the amended C2: on the counterexample input the mask
element `3` that does appear in the output is indeed a member of the
resolved log-side bitmap `{3, 5}`. -/
theorem limit_mask_excludes_elements_outside_log_witness :
    3 ∈ resolveLogOffsetIds
      ⟨[], some ⟨∅, 0⟩, SignedRoaringBitmap.Include {3, 5},
        SignedRoaringBitmap.Exclude {3}⟩ :=
  limit_mask_excludes_elements_outside_log ⟨0, some 1⟩ [] ⟨∅, 0⟩
    (SignedRoaringBitmap.Include {3, 5}) {3} {3} (by decide) 3 (by decide) (by decide)

/-! ### Properties of the hydration passes -/

lemma lastIdxOf_getElem? {w : List ℕ} {o i : ℕ} (h : lastIdxOf w o = some i) :
    w[i]? = some o := by
  unfold lastIdxOf at h
  cases hl : (w.enum.filter (fun p => p.2 = o)).getLast? with
  | none => rw [hl] at h; simp at h
  | some p =>
    rw [hl] at h
    simp only [Option.map, Option.some.injEq] at h
    have hp := List.mem_of_getLast?_eq_some hl
    rw [List.mem_filter, decide_eq_true_eq] at hp
    obtain ⟨hmem, ho⟩ := hp
    rw [← h, ← ho]
    exact List.mem_enum_iff_getElem?.1 hmem

lemma hydrateLogStep_lengths (inc : Bool) (w : List ℕ) (st : HydrationState)
    (log : MaterializedLogRecord) :
    (hydrateLogStep inc w st log).ids.length = st.ids.length ∧
    (hydrateLogStep inc w st log).metadata.length = st.metadata.length ∧
    (hydrateLogStep inc w st log).documents.length = st.documents.length ∧
    (inc = false →
      (hydrateLogStep inc w st log).metadata = st.metadata ∧
      (hydrateLogStep inc w st log).documents = st.documents) := by
  unfold hydrateLogStep
  cases lastIdxOf w log.offset_id with
  | none => exact ⟨rfl, rfl, rfl, fun _ => ⟨rfl, rfl⟩⟩
  | some index =>
    cases inc with
    | false => simp
    | true => simp [List.length_set]

lemma hydrateFromLog_lengths (inc : Bool) (w : List ℕ) :
    ∀ (es : List MaterializedLogRecord) (st : HydrationState),
      (hydrateFromLog inc w st es).ids.length = st.ids.length ∧
      (hydrateFromLog inc w st es).metadata.length = st.metadata.length ∧
      (hydrateFromLog inc w st es).documents.length = st.documents.length ∧
      (inc = false →
        (hydrateFromLog inc w st es).metadata = st.metadata ∧
        (hydrateFromLog inc w st es).documents = st.documents) := by
  intro es
  induction es with
  | nil => intro st; exact ⟨rfl, rfl, rfl, fun _ => ⟨rfl, rfl⟩⟩
  | cons log rest ih =>
    intro st
    have hstep := hydrateLogStep_lengths inc w st log
    have hrest := ih (hydrateLogStep inc w st log)
    unfold hydrateFromLog at hrest ⊢
    rw [List.foldl_cons]
    obtain ⟨h1, h2, h3, h4⟩ := hstep
    obtain ⟨g1, g2, g3, g4⟩ := hrest
    refine ⟨g1.trans h1, g2.trans h2, g3.trans h3, fun hf => ?_⟩
    obtain ⟨hm, hd⟩ := h4 hf
    obtain ⟨gm, gd⟩ := g4 hf
    exact ⟨gm.trans hm, gd.trans hd⟩

lemma hydrateSegStep_lengths {inc : Bool} {reader : MergeSegmentReader}
    {st st' : HydrationState} {p : ℕ × ℕ}
    (h : hydrateSegStep inc reader st p = some st') :
    st'.ids.length = st.ids.length ∧
    st'.metadata.length = st.metadata.length ∧
    st'.documents.length = st.documents.length ∧
    (inc = false → st'.metadata = st.metadata ∧ st'.documents = st.documents) := by
  unfold hydrateSegStep at h
  cases hu : reader.userIdOf p.2 with
  | none => rw [hu] at h; simp at h
  | some u =>
    rw [hu] at h
    cases inc with
    | false =>
      simp only [Option.bind_eq_bind, Option.some_bind, Bool.false_eq_true, if_false,
        Option.pure_def, Option.some.injEq] at h
      rw [← h]
      exact ⟨List.length_set .., rfl, rfl, fun _ => ⟨rfl, rfl⟩⟩
    | true =>
      cases hd : reader.dataOf p.2 with
      | none => rw [hd] at h; simp at h
      | some record =>
        rw [hd] at h
        simp only [Option.bind_eq_bind, Option.some_bind, if_true, Option.pure_def,
          Option.some.injEq] at h
        rw [← h]
        refine ⟨List.length_set .., List.length_set .., List.length_set .., ?_⟩
        intro hfalse
        exact absurd hfalse (by simp)

lemma foldlM_hydrateSegStep_lengths {inc : Bool} {reader : MergeSegmentReader} :
    ∀ (l : List (ℕ × ℕ)) (st st' : HydrationState),
      l.foldlM (hydrateSegStep inc reader) st = some st' →
        st'.ids.length = st.ids.length ∧
        st'.metadata.length = st.metadata.length ∧
        st'.documents.length = st.documents.length ∧
        (inc = false → st'.metadata = st.metadata ∧ st'.documents = st.documents) := by
  intro l
  induction l with
  | nil =>
    intro st st' h
    simp only [List.foldlM_nil, Option.pure_def, Option.some.injEq] at h
    subst h
    exact ⟨rfl, rfl, rfl, fun _ => ⟨rfl, rfl⟩⟩
  | cons p ps ih =>
    intro st st' h
    rw [List.foldlM_cons] at h
    cases hs : hydrateSegStep inc reader st p with
    | none => rw [hs] at h; simp at h
    | some st1 =>
      rw [hs] at h
      simp only [Option.bind_eq_bind, Option.some_bind] at h
      obtain ⟨h1, h2, h3, h4⟩ := hydrateSegStep_lengths hs
      obtain ⟨g1, g2, g3, g4⟩ := ih st1 st' h
      refine ⟨g1.trans h1, g2.trans h2, g3.trans h3, fun hf => ?_⟩
      obtain ⟨hm, hd⟩ := h4 hf
      obtain ⟨gm, gd⟩ := g4 hf
      exact ⟨gm.trans hm, gd.trans hd⟩

lemma hydrateLogStep_getElem?_untouched {inc : Bool} {w : List ℕ} {i : ℕ}
    {st : HydrationState} {log : MaterializedLogRecord}
    (h : lastIdxOf w log.offset_id ≠ some i) :
    (hydrateLogStep inc w st log).ids[i]? = st.ids[i]? ∧
    (hydrateLogStep inc w st log).metadata[i]? = st.metadata[i]? ∧
    (hydrateLogStep inc w st log).documents[i]? = st.documents[i]? := by
  unfold hydrateLogStep
  cases hidx : lastIdxOf w log.offset_id with
  | none => exact ⟨rfl, rfl, rfl⟩
  | some index =>
    have hne : index ≠ i := fun he => h (he ▸ hidx)
    cases inc with
    | false => exact ⟨List.getElem?_set_ne hne, rfl, rfl⟩
    | true =>
      exact ⟨List.getElem?_set_ne hne, List.getElem?_set_ne hne,
        List.getElem?_set_ne hne⟩

lemma hydrateFromLog_getElem?_untouched (inc : Bool) (w : List ℕ) (i : ℕ) :
    ∀ (es : List MaterializedLogRecord) (st : HydrationState),
      (∀ log ∈ es, lastIdxOf w log.offset_id ≠ some i) →
        (hydrateFromLog inc w st es).ids[i]? = st.ids[i]? ∧
        (hydrateFromLog inc w st es).metadata[i]? = st.metadata[i]? ∧
        (hydrateFromLog inc w st es).documents[i]? = st.documents[i]? := by
  intro es
  induction es with
  | nil => intro st _; exact ⟨rfl, rfl, rfl⟩
  | cons log rest ih =>
    intro st hnot
    have hlog := hnot log (List.mem_cons_self ..)
    have hrest : ∀ l ∈ rest, lastIdxOf w l.offset_id ≠ some i :=
      fun l hl => hnot l (List.mem_cons_of_mem _ hl)
    have hstep := @hydrateLogStep_getElem?_untouched inc w i st log hlog
    obtain ⟨g1, g2, g3⟩ := ih (hydrateLogStep inc w st log) hrest
    unfold hydrateFromLog at g1 g2 g3 ⊢
    rw [List.foldl_cons]
    exact ⟨g1.trans hstep.1, g2.trans hstep.2.1, g3.trans hstep.2.2⟩

/-- Counterexample to claim C4 as stated: with merged candidates `[1, 2]`,
`offset = 1` and `limit` absent the window extends one element past the
end of the merged list; the claim expects the correspondingly truncated
(one-row) output, but the slice
`merged_offset_ids[skip_count..skip_count + take_count]` panics (the run
is `none`). -/
theorem merge_out_of_range_window_counterexample :
    mergeRun ⟨[], none, some [1, 2], none, some 1, none, false⟩ = none := by decide

/-- Claim C4 amended: a window that extends past the end of the merged
candidate list makes MergeAndHydrate panic on the slice (the run is
`none`); it never returns an empty or truncated output for such inputs. -/
theorem merge_out_of_range_window_panics
    (input : MergeMetadataResultsOperatorInput)
    (h : (mergedOffsetIds input).length < skipCount input + takeCount input) :
    mergeRun input = none := by
  rw [mergeRun, if_neg (by omega)]

/-- Witness for the amended C4: merged candidates `[5]` with `offset = 2`. -/
theorem merge_out_of_range_window_panics_witness :
    mergeRun ⟨[], none, some [5], none, some 2, none, true⟩ = none :=
  merge_out_of_range_window_panics ⟨[], none, some [5], none, some 2, none, true⟩
    (by decide)

/-- Counterexample to claim C5 as stated: with `include_metadata = false`
and a one-element window, `ids` has length 1 while `metadata` and
`documents` stay empty, so the three output vectors do not have equal
length. -/
theorem merge_alignment_counterexample :
    mergeRun ⟨[], none, some [1], none, none, none, false⟩ = some ⟨[""], [], []⟩ ∧
    ([""] : List String).length ≠ ([] : List (Option ChromaMetadata)).length := by
  constructor
  · decide
  · decide

lemma logState_shape (input : MergeMetadataResultsOperatorInput) :
    (logState input).ids.length = takeCount input ∧
    (input.include_metadata = true →
      (logState input).metadata.length = takeCount input ∧
      (logState input).documents.length = takeCount input) ∧
    (input.include_metadata = false →
      (logState input).metadata = [] ∧ (logState input).documents = []) := by
  obtain ⟨h1, h2, h3, h4⟩ :=
    hydrateFromLog_lengths input.include_metadata (windowIds input) input.matLog
      (initState input)
  rw [logState]
  refine ⟨?_, fun hinc => ?_, fun hinc => ?_⟩
  · rw [h1, initState]
    exact List.length_replicate ..
  · constructor
    · rw [h2, initState]
      simp [hinc]
    · rw [h3, initState]
      simp [hinc]
  · obtain ⟨hm, hd⟩ := h4 hinc
    rw [hm, hd, initState]
    simp [hinc]

/-- Claim C5 amended: on every successful MergeAndHydrate run the length
of `ids` is `take_count = limit ?? |merged|`, which (success implying the
window fits) equals `min(limit, |merged| − offset)`; `metadata` and
`documents` also have that length when `include_metadata` is true, but are
empty when it is false. -/
theorem merge_alignment_by_include_metadata
    (input : MergeMetadataResultsOperatorInput)
    (out : MergeMetadataResultsOperatorOutput)
    (hrun : mergeRun input = some out) :
    out.ids.length = takeCount input ∧
    takeCount input
      = min (input.limit.getD (mergedOffsetIds input).length)
        ((mergedOffsetIds input).length - skipCount input) ∧
    (input.include_metadata = true →
      out.metadata.length = takeCount input ∧
      out.documents.length = takeCount input) ∧
    (input.include_metadata = false → out.metadata = [] ∧ out.documents = []) := by
  obtain ⟨hL1, hL2, hL3⟩ := logState_shape input
  rw [mergeRun] at hrun
  by_cases hle : skipCount input + takeCount input ≤ (mergedOffsetIds input).length
  · rw [if_pos hle] at hrun
    have hmin : takeCount input
        = min (input.limit.getD (mergedOffsetIds input).length)
          ((mergedOffsetIds input).length - skipCount input) := by
      rw [takeCount] at hle ⊢
      omega
    split at hrun
    · split at hrun
      · rename_i reader hreader stB hseg
        rw [Option.some.injEq] at hrun
        rw [← hrun]
        obtain ⟨hS1, hS2, hS3, hS4⟩ := foldlM_hydrateSegStep_lengths _ _ _ hseg
        refine ⟨hS1.trans hL1, hmin, fun hinc => ?_, fun hinc => ?_⟩
        · obtain ⟨hm, hd⟩ := hL2 hinc
          exact ⟨hS2.trans hm, hS3.trans hd⟩
        · obtain ⟨hm, hd⟩ := hL3 hinc
          obtain ⟨hm2, hd2⟩ := hS4 hinc
          exact ⟨hm2.trans hm, hd2.trans hd⟩
      · exact absurd hrun (by simp)
    · rw [Option.some.injEq] at hrun
      rw [← hrun]
      exact ⟨hL1, hmin, hL2, hL3⟩
  · rw [if_neg hle] at hrun
    exact absurd hrun (by simp)

/-- Witness for the amended C5: merged candidates `[1, 2, 3]`, `offset =
1`, `limit = 2`, `include_metadata = true`: all three vectors have length
`2 = min(2, 3 − 1)`. -/
theorem merge_alignment_by_include_metadata_witness :
    (⟨["", ""], [none, none], [none, none]⟩ :
        MergeMetadataResultsOperatorOutput).ids.length
      = takeCount ⟨[], none, some [1, 2, 3], none, some 1, some 2, true⟩ :=
  (merge_alignment_by_include_metadata ⟨[], none, some [1, 2, 3], none, some 1, some 2, true⟩
    ⟨["", ""], [none, none], [none, none]⟩ (by decide)).1

/-- Claim C6 (code bug): segment `{1}` (offset id 1 holding user
`"user_1"`) and a log chunk whose materialization deletes offset id 1
(`final_operation = DeleteExisting`), with both candidate lists absent.
The live-log filter drops the deleted id from the log side, but
`get_all_offset_ids` re-adds it from the segment side, so the merged
candidate list is `[1]` and the log hydration pass writes the deleted
record's merged user id into the output: the run returns one row for a
deleted record instead of an empty result. -/
theorem merge_deleted_segment_record_reappears :
    mergedOffsetIds
        ⟨[⟨1, MaterializedLogOperation.DeleteExisting, "user_1", [], none⟩], none, none,
          some ⟨[1], fun o => if o = 1 then some "user_1" else none,
            fun _ => some (none, none)⟩, none, none, true⟩
      = [1] ∧
    mergeRun
        ⟨[⟨1, MaterializedLogOperation.DeleteExisting, "user_1", [], none⟩], none, none,
          some ⟨[1], fun o => if o = 1 then some "user_1" else none,
            fun _ => some (none, none)⟩, none, none, true⟩
      = some ⟨["user_1"], [none], [none]⟩ := by
  constructor
  · decide
  · decide

/-- Claim C10: when the segment reader is absent (and metadata is
included), every window position whose offset id is not the offset id of
any materialized log entry keeps its pre-sized defaults — the empty
string in `ids` and `none` in `metadata` and `documents` — and the run
succeeds rather than erroring for such positions. -/
theorem merge_unhydrated_positions_hold_defaults
    (input : MergeMetadataResultsOperatorInput)
    (out : MergeMetadataResultsOperatorOutput) (i o : ℕ)
    (hreader : input.reader = none)
    (hinc : input.include_metadata = true)
    (hrun : mergeRun input = some out)
    (hwin : (windowIds input)[i]? = some o)
    (hlog : ∀ log ∈ input.matLog, log.offset_id ≠ o) :
    out.ids[i]? = some "" ∧ out.metadata[i]? = some none ∧
      out.documents[i]? = some none := by
  rw [mergeRun] at hrun
  by_cases hle : skipCount input + takeCount input ≤ (mergedOffsetIds input).length
  · rw [if_pos hle] at hrun
    split at hrun
    · rename_i reader hre
      rw [hreader] at hre
      exact absurd hre (by simp)
    · rw [Option.some.injEq] at hrun
      rw [← hrun]
      have hnot : ∀ log ∈ input.matLog,
          lastIdxOf (windowIds input) log.offset_id ≠ some i := by
        intro log hl heq
        have h2 := lastIdxOf_getElem? heq
        rw [hwin] at h2
        exact hlog log hl (Option.some.inj h2).symm
      obtain ⟨g1, g2, g3⟩ := hydrateFromLog_getElem?_untouched input.include_metadata
        (windowIds input) i input.matLog (initState input) hnot
      have hi : i < takeCount input := by
        obtain ⟨hlt, -⟩ := List.getElem?_eq_some_iff.1 hwin
        have hlen : (windowIds input).length ≤ takeCount input := by
          rw [windowIds, List.length_take]
          exact min_le_left _ _
        omega
      refine ⟨?_, ?_, ?_⟩
      · show (logState input).ids[i]? = some ""
        rw [logState, g1, initState]
        simp [List.getElem?_replicate, hi]
      · show (logState input).metadata[i]? = some none
        rw [logState, g2, initState]
        simp [List.getElem?_replicate, hi, hinc]
      · show (logState input).documents[i]? = some none
        rw [logState, g3, initState]
        simp [List.getElem?_replicate, hi, hinc]
  · rw [if_neg hle] at hrun
    exact absurd hrun (by simp)

/-- Witness for C10: reader absent, window `[7]`, empty log: position 0
holds the defaults. -/
theorem merge_unhydrated_positions_hold_defaults_witness :
    (⟨[""], [none], [none]⟩ : MergeMetadataResultsOperatorOutput).ids[0]? = some "" ∧
    (⟨[""], [none], [none]⟩ : MergeMetadataResultsOperatorOutput).metadata[0]? = some none ∧
    (⟨[""], [none], [none]⟩ : MergeMetadataResultsOperatorOutput).documents[0]? = some none :=
  merge_unhydrated_positions_hold_defaults ⟨[], none, some [7], none, none, none, true⟩
    ⟨[""], [none], [none]⟩ 0 7 rfl rfl (by decide) (by decide) (by simp)

end Chroma
